import Mathlib

/-!
Shallow embedding of the staarb statistical-arbitrage engine core
(`src/staarb/core/types.py`, `src/staarb/core/enums.py`,
`src/staarb/strategy/signal_generator.py`, `src/staarb/portfolio/position.py`,
`src/staarb/portfolio/portfolio.py`, `src/staarb/utils.py`).

Python floats are embedded as rationals (ℚ); the claims under scrutiny are
about exact field arithmetic and comparisons, not rounding.  Python
exceptions are embedded as explicit error values (`PyErr`); operations that
can raise return the partially-mutated state together with an optional error,
mirroring where in the source the raise happens.  Timestamps are embedded as
integers (milliseconds).
-/

namespace Staarb

/-- `OrderSide` enum from `core/enums.py`. -/
inductive OrderSide where
  | BUY
  | SELL
  deriving DecidableEq, Repr

/-- `PositionDirection` enum from `core/enums.py`. -/
inductive PositionDirection where
  | LONG
  | SHORT
  deriving DecidableEq, Repr

/-- `StrategyDecision` enum from `core/enums.py`. -/
inductive StrategyDecision where
  | LONG
  | SHORT
  | HOLD
  | EXIT
  deriving DecidableEq, Repr

/-- `PositionStatus` enum from `core/enums.py`. -/
inductive PositionStatus where
  | LONG
  | SHORT
  | IDLE
  deriving DecidableEq, Repr

/-- The Python exceptions the embedded code can raise.  Message strings are
claim-irrelevant and dropped. -/
inductive PyErr where
  | valueError
  | typeError
  | zeroDivisionError
  | binanceOrderMinAmount
  | binanceOrderMinTotal
  deriving DecidableEq, Repr

/-- `LotSizeFilter` from `core/types.py`; the exchange sends the bounds as
decimal strings, which the portfolio converts with `float(...)` at use sites —
embedded directly as rationals. -/
structure LotSizeFilter where
  min_qty : ℚ
  max_qty : ℚ
  step_size : ℚ
  deriving DecidableEq, Repr

/-- `PriceFilter` from `core/types.py`. -/
structure PriceFilter where
  min_price : ℚ
  max_price : ℚ
  tick_size : ℚ
  deriving DecidableEq, Repr

/-- `NotionalFitter` from `core/types.py`. -/
structure NotionalFitter where
  min_notional : ℚ
  max_notional : ℚ
  deriving DecidableEq, Repr

/-- `Filters` from `core/types.py`. -/
structure Filters where
  lot_size : LotSizeFilter
  price : PriceFilter
  notional : NotionalFitter
  deriving DecidableEq, Repr

/-- `Symbol` from `core/types.py`.  Precision fields are claim-irrelevant and
omitted. -/
structure Symbol where
  name : String
  base_asset : String
  quote_asset : String
  filters : Filters
  deriving DecidableEq, Repr

/-- `Symbol.__eq__` compares by `name` only (`core/types.py` lines 71-75);
this is also the equality used by `dict`/`set` membership via
`Symbol.__hash__`. -/
def symbolEq (a b : Symbol) : Bool :=
  a.name == b.name

/-- `Fill` from `core/types.py`: a trade fill. -/
structure Fill where
  symbol : Symbol
  price : ℚ
  quantity : ℚ
  commission : ℚ
  commission_asset : String
  deriving DecidableEq, Repr

/-- `Fill._set_base_quantity`: quantity net of commission when the commission
is charged in the base asset. -/
def Fill.base_quantity (f : Fill) : ℚ :=
  if f.symbol.base_asset == f.commission_asset then f.quantity - f.commission
  else f.quantity

/-- `Fill._set_quote_quantity`: notional net of commission when the commission
is charged in the quote asset. -/
def Fill.quote_quantity (f : Fill) : ℚ :=
  if f.symbol.quote_asset == f.commission_asset then f.price * f.quantity - f.commission
  else f.price * f.quantity

/-- `Order` from `core/types.py`.  `price = none` encodes a market order. -/
structure Order where
  symbol : Symbol
  quantity : ℚ
  side : OrderSide
  price : Option ℚ := none
  side_effect : String := "AUTO_BORROW_REPAY"
  type : String := "MARKET"
  time_in_force : String := "GTC"
  deriving DecidableEq, Repr

/-- `Transaction` from `core/types.py` (the validated record; validation is
performed by `mkTransaction` below).  The generated uuid is modelled by a
fixed placeholder since its value is claim-irrelevant. -/
structure Transaction where
  order : Order
  fills : List Fill
  transact_time : ℤ
  id : String
  deriving DecidableEq, Repr

/-- `Transaction.__post_init__` (`core/types.py` lines 186-197): empty fills
raise `ValueError`; a first fill whose symbol (compared via `Symbol.__eq__`,
i.e. by name) differs from the order's symbol raises `ValueError`.  The
`isinstance(fills, list)` check is discharged by the type of `fills` in this
embedding.  Note only `fills[0]` is compared against the order's symbol. -/
def mkTransaction (order : Order) (fills : List Fill) (transact_time : ℤ)
    (id? : Option String) : Except PyErr Transaction :=
  match fills with
  | [] => .error .valueError
  | f :: _ =>
    if symbolEq order.symbol f.symbol then
      .ok { order := order, fills := fills, transact_time := transact_time,
            id := id?.getD "uuid4" }
    else
      .error .valueError

/-- `Transaction.avg_fill_price` from `core/types.py`. -/
def Transaction.avg_fill_price (t : Transaction) : ℚ :=
  (t.fills.map Fill.quote_quantity).sum / (t.fills.map Fill.base_quantity).sum

/-- `SingleHedgeRatio` from `core/types.py`. -/
structure SingleHedgeRatio where
  symbol : String
  hedge_ratio : ℚ
  deriving DecidableEq, Repr

/-- `TransactionClosedEvent` from `core/bus/events.py` (timestamp field is
claim-irrelevant and omitted). -/
structure TransactionClosedEvent where
  transaction : Transaction
  position_direction : PositionDirection
  deriving DecidableEq, Repr

/-- `SignalEvent` from `core/bus/events.py`: decision, hedge-ratio legs and
the latest price per symbol name (`prices` is a total lookup, standing for
the Python dict which is keyed by every leg's symbol in the pipeline). -/
structure SignalEvent where
  signal : StrategyDecision
  hedge_ratio : List SingleHedgeRatio
  prices : String → ℚ

/-- `BollingerBand` signal generator state
(`strategy/signal_generator.py`). -/
structure BollingerBand where
  entry_threshold : ℚ := 1
  exit_threshold : ℚ := 0
  position : PositionStatus := .IDLE
  long_only : Bool := false
  deriving DecidableEq, Repr

/-- `BollingerBand.update_position` (`strategy/signal_generator.py`
lines 21-27). -/
def BollingerBand.update_position (g : BollingerBand) (action : StrategyDecision) :
    BollingerBand :=
  if action = .LONG then { g with position := .LONG }
  else if action = .SHORT then { g with position := .SHORT }
  else if action = .EXIT then { g with position := .IDLE }
  else g

/-- `BollingerBand.generate_signal` (`strategy/signal_generator.py`
lines 29-44), translated branch for branch. -/
def BollingerBand.generate_signal (g : BollingerBand) (zscore : ℚ) : StrategyDecision :=
  match g.position with
  | .IDLE =>
    if g.entry_threshold < zscore then
      if g.long_only then .HOLD else .SHORT
    else if zscore < -g.entry_threshold then .LONG
    else .HOLD
  | .SHORT =>
    if ¬g.long_only ∧ zscore < g.exit_threshold then .EXIT else .HOLD
  | .LONG =>
    if -g.exit_threshold < zscore then .EXIT else .HOLD

/-- The transition table exactly as the specification words it (§4.2), for
the refinement comparison with `BollingerBand.generate_signal`: IDLE emits
SHORT when zscore > entry (HOLD if long-only), LONG when zscore < −entry,
otherwise HOLD; SHORT emits EXIT when zscore < exit (HOLD if long-only),
otherwise HOLD; LONG emits EXIT when zscore > −exit, otherwise HOLD. -/
def specSignalTable (state : PositionStatus) (zscore entry_threshold exit_threshold : ℚ)
    (long_only : Bool) : StrategyDecision :=
  match state with
  | .IDLE =>
    if entry_threshold < zscore then
      if long_only then .HOLD else .SHORT
    else if zscore < -entry_threshold then .LONG
    else .HOLD
  | .SHORT =>
    if zscore < exit_threshold then
      if long_only then .HOLD else .EXIT
    else .HOLD
  | .LONG =>
    if -exit_threshold < zscore then .EXIT else .HOLD

/-- `Position` from `portfolio/position.py`.  `position_direction` is a
lazily-set attribute in Python (`hasattr` probe), embedded as an `Option`;
uuid/persistence-cursor fields are claim-irrelevant and omitted. -/
structure Position where
  symbol : Symbol
  size : ℚ := 0
  entry_price : ℚ := 0
  entry_time : ℤ := 0
  exit_time : Option ℤ := none
  exit_price : ℚ := 0
  pnl : ℚ := 0
  is_closed : Bool := false
  transaction_history : List Transaction := []
  position_direction : Option PositionDirection := none
  deriving DecidableEq, Repr

/-- `Position.__init__(symbol, size=0)`. -/
def Position.mk0 (symbol : Symbol) : Position :=
  { symbol := symbol }

/-- `Position.calculate_pnl` (`portfolio/position.py` lines 87-97): zero when
size is zero or the stored exit price is not positive, otherwise
`(exit_price - entry_price) * size`. -/
def Position.calculate_pnl (p : Position) : ℚ :=
  if p.size = 0 then 0
  else if 0 < p.exit_price then (p.exit_price - p.entry_price) * p.size
  else 0

/-- `Position.close_position` (`portfolio/position.py` lines 77-85): raises
`ValueError` when size is zero (leaving the position untouched), otherwise
stores the exit price and time, recomputes `pnl` from the freshly stored exit
price, and sets the closed flag. -/
def Position.close_position (p : Position) (exit_price : ℚ) (exit_time : ℤ) :
    Position × Option PyErr :=
  if p.size = 0 then (p, some .valueError)
  else
    let p₁ := { p with exit_price := exit_price, exit_time := some exit_time }
    let p₂ := { p₁ with pnl := p₁.calculate_pnl }
    ({ p₂ with is_closed := true }, none)

/-- `Position.update_position` (`portfolio/position.py` lines 43-75).  The
returned `Position` is the object state when the call finishes, also when it
finishes by raising (the transaction is appended to the history *before* the
symbol check, so a mismatch raise still leaves it recorded). -/
def Position.update_position (p : Position) (ev : TransactionClosedEvent) :
    Position × Option PyErr :=
  let transaction := ev.transaction
  let (is_entry, p) :=
    match p.position_direction with
    | none =>
      (true, { p with position_direction := some ev.position_direction,
                      entry_time := transaction.transact_time })
    | some d => (decide (d = ev.position_direction), p)
  let p := { p with transaction_history := p.transaction_history ++ [transaction] }
  if ¬symbolEq transaction.order.symbol p.symbol then
    (p, some .valueError)
  else
    let base_quantity := (transaction.fills.map Fill.base_quantity).sum
    let signed_quantity := if transaction.order.side = .BUY then base_quantity else -base_quantity
    if is_entry then
      let p := { p with size := p.size + signed_quantity }
      let total_quote := (transaction.fills.map Fill.quote_quantity).sum
      if p.size ≠ 0 then
        ({ p with entry_price := total_quote / |p.size| }, none)
      else
        (p, none)
    else
      let exit_quote := (transaction.fills.map Fill.quote_quantity).sum
      if signed_quantity = 0 then
        (p, some .zeroDivisionError)
      else
        let exit_price := exit_quote / |signed_quantity|
        p.close_position exit_price transaction.transact_time

/-- Truncation toward zero on ℚ: the quotient used by Python `Decimal`'s
`%` operator, whose remainder carries the sign of the dividend. -/
def ratTrunc (x : ℚ) : ℤ :=
  if 0 ≤ x then ⌊x⌋ else ⌈x⌉

/-- Python `Decimal.__mod__`: remainder after truncated division. -/
def pyDecimalMod (q s : ℚ) : ℚ :=
  q - s * ratTrunc (q / s)

/-- `round_step_size` (`utils.py` lines 9-19): `quantity - quantity % step`
computed exactly over `Decimal`. -/
def round_step_size (quantity step_size : ℚ) : ℚ :=
  quantity - pyDecimalMod quantity step_size

/-- Outcome of an async Python call: it may suspend forever on an
`asyncio.Event` that is never set (`blocked`), raise, or return. -/
inductive PyResult (α : Type) where
  | blocked
  | raised (e : PyErr)
  | ok (a : α)

/-- Modelled from the spec: the module `staarb/core/constants.py`, from which
`portfolio.py` imports `EPS`, is absent from the sources; §4.5 describes EPS
as a small constant guarding against division by zero when hedge weights net
to zero.  Its exact magnitude is not fixed by the spec. -/
def EPS : ℚ := 1 / 100000000

/-- `Portfolio` state (`portfolio/portfolio.py`).  `account_updated` embeds
the `asyncio.Event` rendezvous; `open_positions` is the insertion-ordered
dict keyed by `Symbol` (whose hash/equality is by name); `closed_positions`
maps a symbol name to its append-only closed list (absent key = `[]`). -/
structure Portfolio where
  name : String
  account_size : Option ℚ := none
  account_updated : Bool := false
  quote : String := "USDC"
  leverage : ℚ := 19 / 5
  symbols : List Symbol := []
  open_positions : List (Symbol × Position) := []
  closed_positions : String → List Position := fun _ => []

/-- Python `dict.__getitem__`/`in` over the insertion-ordered pair list,
with `Symbol`'s by-name equality. -/
def pyDictLookup (m : List (Symbol × Position)) (k : Symbol) : Option Position :=
  (m.find? fun kv => symbolEq kv.1 k).map (·.2)

/-- Python `dict.__setitem__`: replace in place when the key is present,
append otherwise. -/
def pyDictSet : List (Symbol × Position) → Symbol → Position → List (Symbol × Position)
  | [], k, v => [(k, v)]
  | kv :: rest, k, v =>
    if symbolEq kv.1 k then (kv.1, v) :: rest else kv :: pyDictSet rest k v

/-- Python `dict.pop`. -/
def pyDictPop : List (Symbol × Position) → Symbol → List (Symbol × Position)
  | [], _ => []
  | kv :: rest, k => if symbolEq kv.1 k then rest else kv :: pyDictPop rest k

/-- `Portfolio.update_position` (`portfolio/portfolio.py` lines 78-91): route
the transaction to the symbol's open position (creating a fresh one when
absent), and when the position comes out closed, pop it from the open map and
append it to the symbol's closed list. -/
def Portfolio.update_position (pf : Portfolio) (ev : TransactionClosedEvent) :
    Portfolio × Option PyErr :=
  let symbol := ev.transaction.order.symbol
  let (p, m₀) :=
    match pyDictLookup pf.open_positions symbol with
    | some p => (p, pf.open_positions)
    | none =>
      let fresh := Position.mk0 symbol
      (fresh, pyDictSet pf.open_positions symbol fresh)
  let (p', err) := p.update_position ev
  let m₁ := pyDictSet m₀ symbol p'
  match err with
  | some e => ({ pf with open_positions := m₁ }, some e)
  | none =>
    if p'.is_closed then
      ({ pf with
          open_positions := pyDictPop m₁ symbol,
          closed_positions := fun n =>
            if n = symbol.name then pf.closed_positions symbol.name ++ [p']
            else pf.closed_positions n }, none)
    else
      ({ pf with open_positions := m₁ }, none)

/-- `Portfolio.filter_order` (`portfolio/portfolio.py` lines 176-203).
`avgPrice` stands for the exchange client's `get_avg_price` answer per symbol
name, consulted when the order carries no (truthy) limit price. -/
def Portfolio.filter_order (pf : Portfolio) (avgPrice : String → ℚ) (o : Order) :
    Except PyErr Order :=
  if ¬pf.symbols.any (fun s => symbolEq s o.symbol) then .error .valueError
  else
    let symbol := o.symbol
    let new_order : Order :=
      { o with
          quantity := round_step_size o.quantity symbol.filters.lot_size.step_size,
          price :=
            match o.price with
            | some p =>
              if p ≠ 0 then some (round_step_size p symbol.filters.price.tick_size)
              else none
            | none => none }
    if new_order.quantity < symbol.filters.lot_size.min_qty then
      .error .binanceOrderMinAmount
    else
      let avg_price :=
        match new_order.price with
        | some p => if p = 0 then avgPrice symbol.name else p
        | none => avgPrice symbol.name
      if avg_price * new_order.quantity < symbol.filters.notional.min_notional then
        .error .binanceOrderMinTotal
      else
        .ok new_order

/-- `Portfolio.get_order_side` (`portfolio/portfolio.py` lines 111-129):
lookup keyed by the hedge-ratio sign and the decision; zero hedge ratio and
HOLD/EXIT decisions raise `ValueError`. -/
def get_order_side (hedge_ratio : ℚ) (signal : StrategyDecision) :
    Except PyErr OrderSide :=
  if hedge_ratio = 0 then .error .valueError
  else
    match decide (0 < hedge_ratio), signal with
    | true, .LONG => .ok .BUY
    | true, .SHORT => .ok .SELL
    | false, .LONG => .ok .SELL
    | false, .SHORT => .ok .BUY
    | _, _ => .error .valueError

/-- `Portfolio.leverage_sizing` (`portfolio/portfolio.py` lines 205-226):
sign-split weighted hedge exposure, rendezvous on the account-updated event
(never set ⇒ the call suspends forever), `ValueError` when the account size
was never established, otherwise the leveraged size over the summed weights
plus EPS; the rendezvous flag is consumed. -/
def Portfolio.leverage_sizing (pf : Portfolio) (ev : SignalEvent) :
    PyResult (ℚ × Portfolio) :=
  let pos_hedge_weight :=
    ((ev.hedge_ratio.filter fun sh => decide (0 < sh.hedge_ratio)).map
      fun sh => ev.prices sh.symbol * sh.hedge_ratio).sum
  let neg_hedge_weight :=
    ((ev.hedge_ratio.filter fun sh => decide (sh.hedge_ratio < 0)).map
      fun sh => -(ev.prices sh.symbol) * sh.hedge_ratio).sum
  if ¬pf.account_updated then .blocked
  else
    match pf.account_size with
    | none => .raised .valueError
    | some a =>
      let leveraged_size := a * (pf.leverage + 1)
      .ok (leveraged_size / (pos_hedge_weight + neg_hedge_weight + EPS),
           { pf with account_updated := false })

/-- The per-leg order construction loop of `Portfolio._prepare_entry_orders`
(`portfolio/portfolio.py` lines 138-150); a `get_order_side` failure
propagates. -/
def buildEntryOrders (symbolInfo : String → Symbol) (signal : StrategyDecision)
    (agg_position_size : ℚ) : List SingleHedgeRatio → Except PyErr (List Order)
  | [] => .ok []
  | sh :: rest => do
    let side ← get_order_side sh.hedge_ratio signal
    let tail ← buildEntryOrders symbolInfo signal agg_position_size rest
    .ok ({ symbol := symbolInfo sh.symbol,
           quantity := agg_position_size * |sh.hedge_ratio|,
           side := side } :: tail)

/-- `Portfolio._prepare_entry_orders` (`portfolio/portfolio.py`
lines 131-150): size via `leverage_sizing`, then one order per hedge-ratio
leg.  `symbolInfo` stands for `BinanceExchangeInfo.get_symbol_info`. -/
def Portfolio.prepare_entry_orders (pf : Portfolio) (symbolInfo : String → Symbol)
    (ev : SignalEvent) : PyResult (List Order × Portfolio) :=
  match pf.leverage_sizing ev with
  | .blocked => .blocked
  | .raised e => .raised e
  | .ok (agg_position_size, pf') =>
    match buildEntryOrders symbolInfo ev.signal agg_position_size ev.hedge_ratio with
    | .error e => .raised e
    | .ok orders => .ok (orders, pf')

/-- `Portfolio._prepare_exit_orders` (`portfolio/portfolio.py`
lines 154-174): one closing order per open position with nonzero size, SELL
for a long, BUY for a short. -/
def Portfolio.prepare_exit_orders (pf : Portfolio) : List Order :=
  pf.open_positions.filterMap fun kv =>
    if 0 < kv.2.size then
      some { symbol := kv.1, quantity := kv.2.size, side := OrderSide.SELL }
    else if kv.2.size < 0 then
      some { symbol := kv.1, quantity := -kv.2.size, side := OrderSide.BUY }
    else none

/-- The price `filter_order` evaluates the notional against: the rounded
limit price when the order carries one and neither it nor its rounding is
falsy (Python truthiness of `0.0`), the exchange's average price
otherwise. -/
def effective_price (avgPrice : String → ℚ) (o : Order) : ℚ :=
  match (match o.price with
         | some p =>
           if p ≠ 0 then some (round_step_size p o.symbol.filters.price.tick_size)
           else none
         | none => none) with
  | some p => if p = 0 then avgPrice o.symbol.name else p
  | none => avgPrice o.symbol.name

/-- The two exchange-minimum exceptions caught by `publish_orders`'s
`except (BinanceOrderMinAmountException, BinanceOrderMinTotalException)`. -/
def PyErr.isBelowMin : PyErr → Bool
  | .binanceOrderMinAmount => true
  | .binanceOrderMinTotal => true
  | _ => false

/-- The `asyncio.gather` of the `filter_order` tasks in `publish_orders`:
every order of the batch is filtered; the first failure in task order
propagates. -/
def gatherFilter (pf : Portfolio) (avgPrice : String → ℚ) :
    List Order → Except PyErr (List Order)
  | [] => .ok []
  | o :: rest =>
    match pf.filter_order avgPrice o with
    | .error e => .error e
    | .ok o' =>
      match gatherFilter pf avgPrice rest with
      | .error e => .error e
      | .ok rest' => .ok (o' :: rest')

/-- The `try`/`gather`/`publish`/`except` block of `Portfolio.publish_orders`
(`portfolio/portfolio.py` lines 103-109): when every filter succeeds, one
`OrderCreatedEvent` holding the filtered orders is published (first
component: the list of published events); when some filter fails, the
propagated failure is swallowed (logged) when it is a below-minimum
exception and re-raised otherwise — either way nothing is published. -/
def Portfolio.filter_batch (pf : Portfolio) (avgPrice : String → ℚ)
    (orders : List Order) : PyResult (List (List Order) × Portfolio) :=
  match gatherFilter pf avgPrice orders with
  | .ok filtered => .ok ([filtered], pf)
  | .error e => if e.isBelowMin then .ok ([], pf) else .raised e

/-- `Portfolio.publish_orders` (`portfolio/portfolio.py` lines 93-109).  The
first component of an `ok` outcome is the list of `OrderCreatedEvent`s
published (each as its order list). -/
def Portfolio.publish_orders (pf : Portfolio) (avgPrice : String → ℚ)
    (symbolInfo : String → Symbol) (ev : SignalEvent) :
    PyResult (List (List Order) × Portfolio) :=
  match ev.signal with
  | .HOLD => .ok ([], pf)
  | .EXIT => pf.filter_batch avgPrice pf.prepare_exit_orders
  | _ =>
    match pf.prepare_entry_orders symbolInfo ev with
    | .blocked => .blocked
    | .raised e => .raised e
    | .ok (orders, pf') => pf'.filter_batch avgPrice orders

/-- The order batch `publish_orders` hands to the filtering stage, when the
control flow reaches it (`none` for HOLD and for entry preparation that
blocks or raises). -/
def Portfolio.prepared_batch (pf : Portfolio) (symbolInfo : String → Symbol)
    (ev : SignalEvent) : Option (List Order) :=
  match ev.signal with
  | .HOLD => none
  | .EXIT => some pf.prepare_exit_orders
  | _ =>
    match pf.prepare_entry_orders symbolInfo ev with
    | .ok (orders, _) => some orders
    | _ => none

/-- The at-most-one-open-position-per-symbol property of the open-positions
dict: its keys are pairwise distinct under `Symbol`'s by-name equality. -/
def openKeysNodup (m : List (Symbol × Position)) : Prop :=
  m.Pairwise fun a b => symbolEq a.1 b.1 = false

/-- The position object `Portfolio.update_position` routes the event to,
after the event is applied: the symbol's open position if present, a fresh
`Position` otherwise. -/
def Portfolio.routed_position (pf : Portfolio) (ev : TransactionClosedEvent) : Position :=
  let symbol := ev.transaction.order.symbol
  let p :=
    match pyDictLookup pf.open_positions symbol with
    | some p => p
    | none => Position.mk0 symbol
  (p.update_position ev).1

/-- Serial processing of a sequence of transaction-closed events by the
portfolio, keeping the state each call leaves behind (an exception
propagates to the bus publisher but does not roll mutations back). -/
def Portfolio.process_events (pf : Portfolio) : List TransactionClosedEvent → Portfolio
  | [] => pf
  | ev :: rest => ((pf.update_position ev).1).process_events rest

/-! Concrete fixtures for the closed evaluations below, shaped like the
repository's own test fixtures (`tests/core/test_types.py`). -/

/-- A concrete exchange filter set: lot step/min 0.001, tick 0.01, minimum
notional 10. -/
def testFilters : Filters :=
  { lot_size := { min_qty := 1 / 1000, max_qty := 9000, step_size := 1 / 1000 },
    price := { min_price := 1 / 100, max_price := 10000, tick_size := 1 / 100 },
    notional := { min_notional := 10, max_notional := 50000 } }

/-- Concrete BTC/USDC symbol. -/
def btcSymbol : Symbol :=
  { name := "BTCUSDC", base_asset := "BTC", quote_asset := "USDC", filters := testFilters }

/-- Concrete ETH/USDC symbol. -/
def ethSymbol : Symbol :=
  { name := "ETHUSDC", base_asset := "ETH", quote_asset := "USDC", filters := testFilters }

/-- The §8 scenario fill: BUY 0.1 BTC at 50000, commission 0.001 BTC. -/
def scenarioFill : Fill :=
  { symbol := btcSymbol, price := 50000, quantity := 1 / 10, commission := 1 / 1000,
    commission_asset := "BTC" }

/-- Order used by the C4 fixtures. -/
def c4Order : Order := { symbol := btcSymbol, quantity := 1 / 10, side := .BUY }

/-- A first fill whose symbol matches the order's. -/
def c4FirstFill : Fill :=
  { symbol := btcSymbol, price := 50000, quantity := 1 / 10, commission := 0,
    commission_asset := "USDC" }

/-- A later fill carrying a different symbol than the order's. -/
def c4AlienFill : Fill :=
  { symbol := ethSymbol, price := 3000, quantity := 1, commission := 0,
    commission_asset := "USDC" }

/-- Order used by the C1 scaled-in entry fixtures. -/
def c1Order : Order := { symbol := btcSymbol, quantity := 1, side := .BUY }

/-- First entry: BUY 1 unit at price 10, no commission. -/
def c1Event1 : TransactionClosedEvent :=
  { transaction :=
      { order := c1Order,
        fills := [{ symbol := btcSymbol, price := 10, quantity := 1, commission := 0,
                    commission_asset := "NONE" }],
        transact_time := 0, id := "t1" },
    position_direction := .LONG }

/-- Second same-direction entry: BUY 1 unit at price 20, no commission. -/
def c1Event2 : TransactionClosedEvent :=
  { transaction :=
      { order := c1Order,
        fills := [{ symbol := btcSymbol, price := 20, quantity := 1, commission := 0,
                    commission_asset := "NONE" }],
        transact_time := 1, id := "t2" },
    position_direction := .LONG }

/-- Position state after the first entry. -/
def c1AfterFirst : Position := ((Position.mk0 btcSymbol).update_position c1Event1).1

/-- Position state after the second (scaled-in) entry. -/
def c1AfterSecond : Position := (c1AfterFirst.update_position c1Event2).1

/-- A long position of size 1 entered at price 10. -/
def c2Position : Position := { symbol := btcSymbol, size := 1, entry_price := 10 }

/-- The position after closing at exit price 20. -/
def c2Closed : Position := (c2Position.close_position 20 5).1

/-- The already-closed position after a further `close_position` call. -/
def c2Reclosed : Position := (c2Closed.close_position 30 8).1

/-- An open long position of 0.001 BTC: its exit order passes the lot
minimum but is far below the 10-unit minimum notional. -/
def c6OpenPosition : Position :=
  { symbol := btcSymbol, size := 1 / 1000, entry_price := 1,
    position_direction := some .LONG }

/-- Portfolio holding the tiny open position. -/
def c6Portfolio : Portfolio :=
  { name := "atomic", account_size := some 100, account_updated := true,
    symbols := [btcSymbol], open_positions := [(btcSymbol, c6OpenPosition)] }

/-- An EXIT signal for the tiny position. -/
def c6Signal : SignalEvent :=
  { signal := .EXIT, hedge_ratio := [], prices := fun _ => 0 }

/-- Exchange average price oracle used in the C6 scenario. -/
def c6Avg : String → ℚ := fun _ => 1

/-- Exchange-info oracle used in the C6 scenario. -/
def c6Info : String → Symbol := fun _ => btcSymbol

/-- The exit order `publish_orders` prepares for the tiny position. -/
def c6ExitOrder : Order := { symbol := btcSymbol, quantity := 1 / 1000, side := .SELL }

/-- Portfolio tracking BTC/USDC for the C7 filtering scenario. -/
def c7Portfolio : Portfolio := { name := "filt", symbols := [btcSymbol] }

/-- A market BUY of 0.0157 BTC: the quantity is not aligned to the 0.001
lot step. -/
def c7Order : Order := { symbol := btcSymbol, quantity := 157 / 10000, side := .BUY }

/-- Exchange average price oracle used in the C7 scenario. -/
def c7Avg : String → ℚ := fun _ => 1000

/-- Portfolio with an established account size of 100 at leverage 3. -/
def c8Portfolio : Portfolio :=
  { name := "sized", account_size := some 100, account_updated := true, leverage := 3 }

/-- A LONG signal over two hedge legs of opposite sign, both priced 10. -/
def c8Signal : SignalEvent :=
  { signal := .LONG,
    hedge_ratio := [{ symbol := "AAA", hedge_ratio := 2 },
                    { symbol := "BBB", hedge_ratio := -1 }],
    prices := fun _ => 10 }

/-- A portfolio with no open positions, for the C9 bookkeeping scenario. -/
def c9Portfolio : Portfolio := { name := "book", symbols := [btcSymbol] }

/-! Theorems. -/

/-- Claim C10: `BollingerBand.update_position` with HOLD (the only decision
besides LONG, SHORT and EXIT) leaves the generator unchanged, and no
`update_position` call touches the thresholds or the `long_only` flag. -/
theorem bollinger_update_position_frame (g : BollingerBand) (a : StrategyDecision) :
    g.update_position .HOLD = g ∧
    (g.update_position a).entry_threshold = g.entry_threshold ∧
    (g.update_position a).exit_threshold = g.exit_threshold ∧
    (g.update_position a).long_only = g.long_only := by
  refine ⟨rfl, ?_, ?_, ?_⟩ <;> cases a <;> rfl

/-- Claim C5: a fill's `base_quantity` is the quantity net of the commission
exactly when the commission asset is the base asset, its `quote_quantity` is
the notional net of the commission exactly when the commission asset is the
quote asset; on the §8 scenario fill (BUY 0.1 BTC at 50000, commission
0.001 BTC) this gives `base_quantity = 0.099` and `quote_quantity = 5000`. -/
theorem fill_commission_deducted_once (f : Fill) :
    (f.commission_asset = f.symbol.base_asset → f.base_quantity = f.quantity - f.commission) ∧
    (f.commission_asset ≠ f.symbol.base_asset → f.base_quantity = f.quantity) ∧
    (f.commission_asset = f.symbol.quote_asset →
      f.quote_quantity = f.price * f.quantity - f.commission) ∧
    (f.commission_asset ≠ f.symbol.quote_asset → f.quote_quantity = f.price * f.quantity) ∧
    scenarioFill.base_quantity = 99 / 1000 ∧ scenarioFill.quote_quantity = 5000 := by
  refine ⟨?_, ?_, ?_, ?_, ?_, ?_⟩
  · intro h; simp [Fill.base_quantity, beq_iff_eq, h]
  · intro h; simp [Fill.base_quantity, beq_iff_eq, Ne.symm h]
  · intro h; simp [Fill.quote_quantity, beq_iff_eq, h]
  · intro h; simp [Fill.quote_quantity, beq_iff_eq, Ne.symm h]
  · norm_num [scenarioFill, Fill.base_quantity, btcSymbol]
  · norm_num [scenarioFill, Fill.quote_quantity, btcSymbol]
    decide

/-- Witness for C5 at the §8 scenario fill: the commission is charged in the
base asset, so it is deducted from the base leg and not from the quote
notional. -/
theorem fill_commission_deducted_once_witness :
    scenarioFill.base_quantity = scenarioFill.quantity - scenarioFill.commission ∧
    scenarioFill.quote_quantity = scenarioFill.price * scenarioFill.quantity := by
  have h := fill_commission_deducted_once scenarioFill
  exact ⟨h.1 rfl, h.2.2.2.1 (by decide)⟩

/-- Claim C3: `generate_signal` agrees with the spec's transition table
(`specSignalTable`) on every state, z-score, threshold pair and long-only
flag, and a z-score exactly equal to the boundary of a transition's strict
inequality never triggers that transition; with a nonnegative entry
threshold, a boundary z-score in IDLE yields HOLD outright. -/
theorem generate_signal_spec_table (g : BollingerBand) (z : ℚ) :
    g.generate_signal z =
      specSignalTable g.position z g.entry_threshold g.exit_threshold g.long_only ∧
    (g.position = .IDLE → z = g.entry_threshold → g.generate_signal z ≠ .SHORT) ∧
    (g.position = .IDLE → z = -g.entry_threshold → g.generate_signal z ≠ .LONG) ∧
    (g.position = .SHORT → z = g.exit_threshold → g.generate_signal z = .HOLD) ∧
    (g.position = .LONG → z = -g.exit_threshold → g.generate_signal z = .HOLD) ∧
    (g.position = .IDLE → 0 ≤ g.entry_threshold →
      (z = g.entry_threshold ∨ z = -g.entry_threshold) → g.generate_signal z = .HOLD) := by
  obtain ⟨entry, exit_, pos, lo⟩ := g
  refine ⟨?_, ?_, ?_, ?_, ?_, ?_⟩
  · cases pos <;> cases lo <;>
      simp [BollingerBand.generate_signal, specSignalTable]
  · rintro rfl rfl
    simp only [BollingerBand.generate_signal]
    split_ifs <;> simp_all
  · rintro rfl rfl
    simp only [BollingerBand.generate_signal]
    split_ifs <;> simp_all
  · rintro rfl rfl
    simp [BollingerBand.generate_signal]
  · rintro rfl rfl
    simp [BollingerBand.generate_signal]
  · rintro rfl hentry (rfl | rfl)
    · simp only [BollingerBand.generate_signal]
      rw [if_neg (lt_irrefl _), if_neg (by linarith)]
    · simp only [BollingerBand.generate_signal]
      rw [if_neg (by linarith), if_neg (lt_irrefl _)]

/-- Witness for C3 with the default thresholds (entry 1, exit 0): boundary
z-scores yield HOLD in each of the three states. -/
theorem generate_signal_spec_table_witness :
    BollingerBand.generate_signal { position := .IDLE } 1 = .HOLD ∧
    BollingerBand.generate_signal { position := .SHORT } 0 = .HOLD ∧
    BollingerBand.generate_signal { position := .LONG } 0 = .HOLD := by
  refine ⟨?_, ?_, ?_⟩
  · exact (generate_signal_spec_table { position := .IDLE } 1).2.2.2.2.2 rfl
      (by norm_num) (Or.inl rfl)
  · exact (generate_signal_spec_table { position := .SHORT } 0).2.2.2.1 rfl rfl
  · exact (generate_signal_spec_table { position := .LONG } 0).2.2.2.2.1 rfl
      (by norm_num)

/-- Counterexample to C4: a transaction whose second fill carries a symbol
different from the order's is nonetheless constructed successfully —
`Transaction.__post_init__` compares only `fills[0]` against the order's
symbol. -/
theorem mkTransaction_ignores_later_fill_symbols :
    symbolEq c4Order.symbol c4AlienFill.symbol = false ∧
    mkTransaction c4Order [c4FirstFill, c4AlienFill] 0 (some "tx") =
      .ok { order := c4Order, fills := [c4FirstFill, c4AlienFill],
            transact_time := 0, id := "tx" } := by
  exact ⟨rfl, rfl⟩

/-- Claim C4 as amended: construction fails when the fills list is empty or
when the FIRST fill's symbol differs from the order's, and succeeds for every
non-empty fills list whose first fill carries the order's symbol — the
symbols of later fills are not validated. -/
theorem mkTransaction_first_fill_validation (order : Order) (fills : List Fill)
    (t : ℤ) (id? : Option String) :
    (fills = [] → mkTransaction order fills t id? = .error .valueError) ∧
    (∀ f rest, fills = f :: rest →
      (symbolEq order.symbol f.symbol = true →
        mkTransaction order fills t id? =
          .ok { order := order, fills := fills, transact_time := t,
                id := id?.getD "uuid4" }) ∧
      (symbolEq order.symbol f.symbol = false →
        mkTransaction order fills t id? = .error .valueError)) := by
  constructor
  · rintro rfl; rfl
  · rintro f rest rfl
    constructor
    · intro h; simp [mkTransaction, h]
    · intro h; simp [mkTransaction, h]

/-- Witness for the amended C4: a one-fill transaction on a matching symbol
is constructed successfully. -/
theorem mkTransaction_first_fill_validation_witness :
    mkTransaction c4Order [c4FirstFill] 0 none =
      .ok { order := c4Order, fills := [c4FirstFill], transact_time := 0,
            id := "uuid4" } := by
  exact ((mkTransaction_first_fill_validation c4Order [c4FirstFill] 0 none).2
    c4FirstFill [] rfl).1 rfl

/-- Evaluation of the first C1 entry: size 1, entry price 10. -/
theorem c1AfterFirst_eq :
    c1AfterFirst =
      { symbol := btcSymbol, size := 1, entry_price := 10, entry_time := 0,
        transaction_history := [c1Event1.transaction],
        position_direction := some .LONG } := by
  simp [c1AfterFirst, Position.mk0, Position.update_position, c1Event1, c1Order,
        symbolEq, Fill.base_quantity, Fill.quote_quantity, btcSymbol]

/-- Evaluation of the second C1 entry: size 2, entry price 20/2 = 10 (the
latest transaction's notional over the total size). -/
theorem c1AfterSecond_eq :
    c1AfterSecond =
      { symbol := btcSymbol, size := 2, entry_price := 10, entry_time := 0,
        transaction_history := [c1Event1.transaction, c1Event2.transaction],
        position_direction := some .LONG } := by
  rw [c1AfterSecond, c1AfterFirst_eq]
  norm_num [Position.update_position, c1Event2, c1Event1, c1Order,
            symbolEq, Fill.base_quantity, Fill.quote_quantity, btcSymbol]

/-- Claim C1, evaluated at the failing input (code bug): two same-direction
BUY entries of 1 unit at prices 10 then 20.  The code stores
`entry_price = 10` after the second entry — the latest transaction's quote
notional (20) over the total absolute size (2) — while the weighted-average
invariant (total accumulated notional 30 over total absolute size 2) demands
15.  The code's own comment says it computes the weighted average entry
price. -/
theorem entry_price_not_weighted_average :
    c1AfterFirst.size = 1 ∧ c1AfterFirst.entry_price = 10 ∧
    c1AfterSecond.size = 2 ∧ c1AfterSecond.entry_price = 10 ∧
    ((c1Event1.transaction.fills ++ c1Event2.transaction.fills).map
        Fill.quote_quantity).sum / |c1AfterSecond.size| = 15 ∧
    c1AfterSecond.entry_price ≠
      ((c1Event1.transaction.fills ++ c1Event2.transaction.fills).map
        Fill.quote_quantity).sum / |c1AfterSecond.size| := by
  refine ⟨?_, ?_, ?_, ?_, ?_, ?_⟩ <;>
    norm_num [c1AfterFirst_eq, c1AfterSecond_eq, c1Event1, c1Event2,
              Fill.quote_quantity, btcSymbol]

/-- Counterexample to C2: a closed position's `pnl` is mutated by a
subsequent `close_position` call — after closing at 20 (`pnl = 10`,
`is_closed = true`), closing again at 30 overwrites `pnl` with 20. -/
theorem pnl_mutated_after_close :
    c2Closed.is_closed = true ∧ c2Closed.pnl = 10 ∧
    c2Reclosed.pnl = 20 ∧ c2Reclosed.pnl ≠ c2Closed.pnl := by
  have h1 : c2Closed =
      { symbol := btcSymbol, size := 1, entry_price := 10, exit_time := some 5,
        exit_price := 20, pnl := 10, is_closed := true } := by
    norm_num [c2Closed, c2Position, Position.close_position, Position.calculate_pnl]
  have h2 : c2Reclosed.pnl = 20 := by
    norm_num [c2Reclosed, h1, Position.close_position, Position.calculate_pnl]
  refine ⟨by rw [h1], by rw [h1], h2, by rw [h2, h1]; norm_num⟩

/-- Claim C2 as amended: for a position of nonzero size, `close_position`
succeeds, records the exit price, sets the closed flag, and computes
`pnl = (exit_price − entry_price) × size` whenever the exit price is
positive (a non-positive exit price stores `pnl = 0`); the class itself does
not freeze `pnl` after closing — a later `close_position` (or a reversing
`update_position`, which calls it) recomputes it. -/
theorem close_position_pnl (p : Position) (exit_price : ℚ) (exit_time : ℤ)
    (hsize : p.size ≠ 0) :
    (p.close_position exit_price exit_time).2 = none ∧
    (p.close_position exit_price exit_time).1.is_closed = true ∧
    (p.close_position exit_price exit_time).1.exit_price = exit_price ∧
    (0 < exit_price →
      (p.close_position exit_price exit_time).1.pnl =
        (exit_price - p.entry_price) * p.size) ∧
    (¬0 < exit_price → (p.close_position exit_price exit_time).1.pnl = 0) := by
  unfold Position.close_position
  rw [if_neg hsize]
  refine ⟨rfl, rfl, rfl, ?_, ?_⟩
  · intro hpos; simp [Position.calculate_pnl, hsize, hpos]
  · intro hpos; simp [Position.calculate_pnl, hsize, hpos]

/-- Witness for the amended C2: closing the size-1 position entered at 10 at
exit price 20 yields `pnl = (20 − 10) × 1`. -/
theorem close_position_pnl_witness :
    (c2Position.close_position 20 5).1.pnl =
      (20 - c2Position.entry_price) * c2Position.size := by
  exact (close_position_pnl c2Position 20 5 (by decide)).2.2.2.1 (by norm_num)

/-- The sign-split hedge weights of `leverage_sizing` sum to the total
`price × |hedge_ratio|` exposure over all legs (legs with a zero ratio
contribute zero to either side). -/
theorem hedge_weight_split (prices : String → ℚ) (l : List SingleHedgeRatio) :
    ((l.filter fun sh => decide (0 < sh.hedge_ratio)).map
      fun sh => prices sh.symbol * sh.hedge_ratio).sum +
    ((l.filter fun sh => decide (sh.hedge_ratio < 0)).map
      fun sh => -(prices sh.symbol) * sh.hedge_ratio).sum =
    (l.map fun sh => prices sh.symbol * |sh.hedge_ratio|).sum := by
  induction l with
  | nil => simp
  | cons sh rest ih =>
    rcases lt_trichotomy sh.hedge_ratio 0 with h | h | h
    · have h1 : ¬(0 < sh.hedge_ratio) := not_lt.2 h.le
      rw [List.filter_cons, List.filter_cons, if_neg (by simpa using h1),
        if_pos (by simpa using h)]
      simp only [List.map_cons, List.sum_cons, abs_of_neg h]
      linarith [ih]
    · have h1 : ¬(0 < sh.hedge_ratio) := by rw [h]; exact lt_irrefl 0
      have h2 : ¬(sh.hedge_ratio < 0) := by rw [h]; exact lt_irrefl 0
      rw [List.filter_cons, List.filter_cons, if_neg (by simpa using h1),
        if_neg (by simpa using h2)]
      simp only [List.map_cons, List.sum_cons, h, abs_zero, mul_zero, zero_add]
      exact ih
    · have h1 : ¬(sh.hedge_ratio < 0) := not_lt.2 h.le
      rw [List.filter_cons, List.filter_cons, if_pos (by simpa using h),
        if_neg (by simpa using h1)]
      simp only [List.map_cons, List.sum_cons, abs_of_pos h]
      linarith [ih]

/-- Claim C8: with the account-updated rendezvous passed, `leverage_sizing`
returns `account_size × (leverage + 1)` divided by the summed
`price × |hedge_ratio|` exposure plus EPS (consuming the rendezvous flag),
and raises a precondition `ValueError` when the account size was never
established. -/
theorem leverage_sizing_formula (pf : Portfolio) (ev : SignalEvent)
    (hupd : pf.account_updated = true) :
    (∀ a, pf.account_size = some a →
      pf.leverage_sizing ev =
        .ok (a * (pf.leverage + 1) /
              ((ev.hedge_ratio.map fun sh => ev.prices sh.symbol * |sh.hedge_ratio|).sum
                + EPS),
             { pf with account_updated := false })) ∧
    (pf.account_size = none → pf.leverage_sizing ev = .raised .valueError) := by
  constructor
  · intro a ha
    simp only [Portfolio.leverage_sizing, hupd, not_true_eq_false, if_false, ha]
    rw [hedge_weight_split]
  · intro ha
    simp [Portfolio.leverage_sizing, hupd, ha]

/-- Witness for C8: account size 100 at leverage 3 over two opposite-sign
legs priced 10 with ratios 2 and −1 gives `100 × 4 / (30 + EPS)`. -/
theorem leverage_sizing_formula_witness :
    c8Portfolio.leverage_sizing c8Signal =
      .ok (400 / (30 + EPS), { c8Portfolio with account_updated := false }) := by
  have h := (leverage_sizing_formula c8Portfolio c8Signal rfl).1 100 rfl
  rw [h]
  norm_num [c8Signal, c8Portfolio]

/-- `round_step_size` is the step times the truncated quotient. -/
theorem round_step_size_eq_mul (q s : ℚ) :
    round_step_size q s = s * ratTrunc (q / s) := by
  simp only [round_step_size, pyDecimalMod]
  ring

/-- For a nonnegative quantity and positive step, `round_step_size` never
rounds up. -/
theorem round_step_size_le (q s : ℚ) (hs : 0 < s) (hq : 0 ≤ q) :
    round_step_size q s ≤ q := by
  rw [round_step_size_eq_mul, ratTrunc, if_pos (div_nonneg hq hs.le)]
  have h1 : (⌊q / s⌋ : ℚ) ≤ q / s := Int.floor_le _
  have h2 : s * (⌊q / s⌋ : ℚ) ≤ s * (q / s) :=
    mul_le_mul_of_nonneg_left h1 hs.le
  calc s * (⌊q / s⌋ : ℚ) ≤ s * (q / s) := h2
    _ = q / s * s := mul_comm _ _
    _ = q := div_mul_cancel₀ q hs.ne'

/-- For a nonnegative quantity and positive step, `round_step_size` loses
strictly less than one step. -/
theorem round_step_size_gt (q s : ℚ) (hs : 0 < s) (hq : 0 ≤ q) :
    q - s < round_step_size q s := by
  rw [round_step_size_eq_mul, ratTrunc, if_pos (div_nonneg hq hs.le)]
  have h1 : q / s < (⌊q / s⌋ : ℚ) + 1 := Int.lt_floor_add_one _
  have h2 : q < ((⌊q / s⌋ : ℚ) + 1) * s := (div_lt_iff hs).1 h1
  nlinarith

/-- `filter_order` on a tracked symbol, written out: the min-quantity check
on the rounded quantity, then the min-notional check against the effective
price, then the rounded order. -/
theorem filter_order_eq_of_mem (pf : Portfolio) (avgPrice : String → ℚ) (o : Order)
    (hmem : pf.symbols.any (fun s => symbolEq s o.symbol) = true) :
    pf.filter_order avgPrice o =
      (if round_step_size o.quantity o.symbol.filters.lot_size.step_size <
          o.symbol.filters.lot_size.min_qty then .error .binanceOrderMinAmount
       else if effective_price avgPrice o *
          round_step_size o.quantity o.symbol.filters.lot_size.step_size <
          o.symbol.filters.notional.min_notional then .error .binanceOrderMinTotal
       else .ok
        { o with
            quantity := round_step_size o.quantity o.symbol.filters.lot_size.step_size,
            price :=
              match o.price with
              | some p =>
                if p ≠ 0 then some (round_step_size p o.symbol.filters.price.tick_size)
                else none
              | none => none }) := by
  unfold Portfolio.filter_order
  rw [if_neg (by simp [hmem])]
  rfl

/-- Claim C7: on an untracked symbol `filter_order` raises `ValueError`; on a
tracked one it rounds the quantity down to the lot step (never up, losing
less than one step), fails with the minimum-quantity condition exactly when
the rounded quantity is strictly below the minimum lot, rounds a present
positive limit price down to the tick size, and (when the quantity check
passes) fails with the minimum-notional condition exactly when the effective
price times the rounded quantity is strictly below the minimum notional. -/
theorem filter_order_spec (pf : Portfolio) (avgPrice : String → ℚ) (o : Order) :
    (pf.symbols.any (fun s => symbolEq s o.symbol) = false →
      pf.filter_order avgPrice o = .error .valueError) ∧
    (pf.symbols.any (fun s => symbolEq s o.symbol) = true →
      (0 < o.symbol.filters.lot_size.step_size → 0 ≤ o.quantity →
        round_step_size o.quantity o.symbol.filters.lot_size.step_size ≤ o.quantity ∧
        (∃ n : ℤ, round_step_size o.quantity o.symbol.filters.lot_size.step_size =
          n * o.symbol.filters.lot_size.step_size) ∧
        o.quantity - o.symbol.filters.lot_size.step_size <
          round_step_size o.quantity o.symbol.filters.lot_size.step_size) ∧
      (pf.filter_order avgPrice o = .error .binanceOrderMinAmount ↔
        round_step_size o.quantity o.symbol.filters.lot_size.step_size <
          o.symbol.filters.lot_size.min_qty) ∧
      (∀ p, o.price = some p → 0 < p → 0 < o.symbol.filters.price.tick_size →
        round_step_size p o.symbol.filters.price.tick_size ≤ p ∧
        (∃ n : ℤ, round_step_size p o.symbol.filters.price.tick_size =
          n * o.symbol.filters.price.tick_size) ∧
        ∀ o', pf.filter_order avgPrice o = .ok o' →
          o'.price = some (round_step_size p o.symbol.filters.price.tick_size)) ∧
      (¬round_step_size o.quantity o.symbol.filters.lot_size.step_size <
          o.symbol.filters.lot_size.min_qty →
        (pf.filter_order avgPrice o = .error .binanceOrderMinTotal ↔
          effective_price avgPrice o *
            round_step_size o.quantity o.symbol.filters.lot_size.step_size <
            o.symbol.filters.notional.min_notional)) ∧
      (∀ o', pf.filter_order avgPrice o = .ok o' →
        o'.quantity = round_step_size o.quantity o.symbol.filters.lot_size.step_size)) := by
  constructor
  · intro hmem
    unfold Portfolio.filter_order
    rw [if_pos (by simp [hmem])]
  · intro hmem
    rw [filter_order_eq_of_mem pf avgPrice o hmem]
    refine ⟨?_, ?_, ?_, ?_, ?_⟩
    · intro hs hq
      exact ⟨round_step_size_le _ _ hs hq,
        ⟨ratTrunc (o.quantity / o.symbol.filters.lot_size.step_size),
          by rw [round_step_size_eq_mul]; ring⟩,
        round_step_size_gt _ _ hs hq⟩
    · split_ifs with h1 h2 <;> simp [h1]
    · intro p hp hppos htick
      refine ⟨round_step_size_le _ _ htick hppos.le,
        ⟨ratTrunc (p / o.symbol.filters.price.tick_size),
          by rw [round_step_size_eq_mul]; ring⟩, ?_⟩
      intro o' ho'
      split_ifs at ho' with h1 h2
      simp only [Except.ok.injEq] at ho'
      rw [← ho']
      simp [hp, hppos.ne']
    · intro h1
      rw [if_neg h1]
      split_ifs with h2 <;> simp [h2]
    · intro o' ho'
      split_ifs at ho' with h1 h2
      simp only [Except.ok.injEq] at ho'
      rw [← ho']

/-- Witness for C7: a market BUY of 0.0157 BTC on the tracked BTC/USDC
symbol rounds down to 0.015 (≤ the raw quantity) and passes the
minimum-quantity check. -/
theorem filter_order_spec_witness :
    round_step_size c7Order.quantity c7Order.symbol.filters.lot_size.step_size ≤
      c7Order.quantity ∧
    ¬(c7Portfolio.filter_order c7Avg c7Order = .error .binanceOrderMinAmount) := by
  have hmem : c7Portfolio.symbols.any (fun s => symbolEq s c7Order.symbol) = true := by
    simp [c7Portfolio, c7Order, symbolEq, btcSymbol]
  have h := (filter_order_spec c7Portfolio c7Avg c7Order).2 hmem
  have hround : round_step_size (157 / 10000 : ℚ) (1 / 1000) = 3 / 200 := by
    have hdiv : ((157 : ℚ) / 10000) / (1 / 1000) = 157 / 10 := by norm_num
    have hfloor : ⌊(157 : ℚ) / 10⌋ = 15 := by
      rw [Int.floor_eq_iff] <;> norm_num
    rw [round_step_size_eq_mul, hdiv, ratTrunc, if_pos (by norm_num), hfloor]
    norm_num
  refine ⟨(h.1 (by norm_num [c7Order, btcSymbol, testFilters])
      (by norm_num [c7Order])).1, ?_⟩
  intro hbad
  have := h.2.1.1 hbad
  rw [show c7Order.quantity = (157 / 10000 : ℚ) from rfl,
      show c7Order.symbol.filters.lot_size.step_size = (1 / 1000 : ℚ) from rfl,
      hround] at this
  norm_num [c7Order, btcSymbol, testFilters] at this

/-- If some order of the batch fails its filter, the gather fails. -/
theorem gatherFilter_error_of_mem (pf : Portfolio) (avgPrice : String → ℚ)
    (orders : List Order) (o : Order) (ho : o ∈ orders) (e : PyErr)
    (he : pf.filter_order avgPrice o = .error e) :
    ∃ e', gatherFilter pf avgPrice orders = .error e' := by
  induction orders with
  | nil => cases ho
  | cons hd tl ih =>
    rcases List.mem_cons.1 ho with rfl | htl
    · exact ⟨e, by simp [gatherFilter, he]⟩
    · cases hhd : pf.filter_order avgPrice hd with
      | error e0 => exact ⟨e0, by simp [gatherFilter, hhd]⟩
      | ok o' =>
        obtain ⟨e', he'⟩ := ih htl
        exact ⟨e', by simp [gatherFilter, hhd, he']⟩

/-- When some order of the batch fails its filter, `filter_batch` publishes
nothing and never surfaces a below-minimum exception. -/
theorem filter_batch_abandons (pf : Portfolio) (avgPrice : String → ℚ)
    (orders : List Order) (o : Order) (ho : o ∈ orders) (e : PyErr)
    (he : pf.filter_order avgPrice o = .error e) :
    (∀ events pf', pf.filter_batch avgPrice orders = .ok (events, pf') →
      events = []) ∧
    ∀ e', e'.isBelowMin = true → pf.filter_batch avgPrice orders ≠ .raised e' := by
  obtain ⟨e0, he0⟩ := gatherFilter_error_of_mem pf avgPrice orders o ho e he
  simp only [Portfolio.filter_batch, he0]
  by_cases hb : e0.isBelowMin = true
  · rw [if_pos hb]
    constructor
    · intro events pf' h
      simp only [PyResult.ok.injEq, Prod.mk.injEq] at h
      exact h.1.symm
    · intro e' _ h
      cases h
  · rw [if_neg hb]
    constructor
    · intro events pf' h
      cases h
    · intro e' hbm h
      cases h
      exact hb hbm

/-- A successful `leverage_sizing` leaves the portfolio unchanged except for
consuming the account-updated flag. -/
theorem leverage_sizing_ok_state (pf : Portfolio) (ev : SignalEvent) (q : ℚ)
    (pf' : Portfolio) (h : pf.leverage_sizing ev = .ok (q, pf')) :
    pf' = { pf with account_updated := false } := by
  simp only [Portfolio.leverage_sizing] at h
  by_cases hupd : pf.account_updated = true
  · rw [if_neg (by simp [hupd])] at h
    cases ha : pf.account_size with
    | none => rw [ha] at h; cases h
    | some a =>
      simp only [ha, PyResult.ok.injEq, Prod.mk.injEq] at h
      exact h.2.symm
  · rw [if_pos (by simpa using hupd)] at h
    cases h

/-- A successful `prepare_entry_orders` also only consumes the
account-updated flag. -/
theorem prepare_entry_orders_state (pf : Portfolio) (symbolInfo : String → Symbol)
    (ev : SignalEvent) (orders : List Order) (pf' : Portfolio)
    (h : pf.prepare_entry_orders symbolInfo ev = .ok (orders, pf')) :
    pf' = { pf with account_updated := false } := by
  simp only [Portfolio.prepare_entry_orders] at h
  cases hls : pf.leverage_sizing ev with
  | blocked => rw [hls] at h; cases h
  | raised e => rw [hls] at h; cases h
  | ok a =>
    obtain ⟨q, pfl⟩ := a
    simp only [hls] at h
    cases hb : buildEntryOrders symbolInfo ev.signal q ev.hedge_ratio with
    | error e => rw [hb] at h; cases h
    | ok os =>
      simp only [hb, PyResult.ok.injEq, Prod.mk.injEq] at h
      rw [← h.2]
      exact leverage_sizing_ok_state pf ev q pfl hls

/-- `filter_order` reads only the tracked-symbol set, so the consumed
account-updated flag does not change its verdict. -/
theorem filter_order_account_flag (pf : Portfolio) (b : Bool)
    (avgPrice : String → ℚ) (o : Order) :
    Portfolio.filter_order { pf with account_updated := b } avgPrice o =
      pf.filter_order avgPrice o := rfl

/-- Claim C6: whenever the batch `publish_orders` prepares for a signal
contains an order whose filtering fails with a below-minimum condition, no
`OrderCreatedEvent` is published at all — never a partial one — and no
below-minimum exception escapes the call. -/
theorem publish_orders_atomic (pf : Portfolio) (avgPrice : String → ℚ)
    (symbolInfo : String → Symbol) (ev : SignalEvent) (batch : List Order)
    (o : Order) (e : PyErr)
    (hbatch : pf.prepared_batch symbolInfo ev = some batch)
    (ho : o ∈ batch)
    (he : pf.filter_order avgPrice o = .error e)
    (hmin : e.isBelowMin = true) :
    (∀ events pf', pf.publish_orders avgPrice symbolInfo ev = .ok (events, pf') →
      events = []) ∧
    ∀ e', e'.isBelowMin = true →
      pf.publish_orders avgPrice symbolInfo ev ≠ .raised e' := by
  unfold Portfolio.prepared_batch at hbatch
  unfold Portfolio.publish_orders
  cases hsig : ev.signal with
  | HOLD => rw [hsig] at hbatch; cases hbatch
  | EXIT =>
    simp only [hsig, Option.some.injEq] at hbatch
    subst hbatch
    simp only [hsig]
    exact filter_batch_abandons pf avgPrice _ o ho e he
  | LONG =>
    simp only [hsig] at hbatch
    cases hpe : pf.prepare_entry_orders symbolInfo ev with
    | blocked => rw [hpe] at hbatch; cases hbatch
    | raised e0 => rw [hpe] at hbatch; cases hbatch
    | ok a =>
      obtain ⟨os, pf'⟩ := a
      simp only [hpe, Option.some.injEq] at hbatch
      subst hbatch
      simp only [hsig, hpe, prepare_entry_orders_state pf symbolInfo ev os pf' hpe]
      exact filter_batch_abandons _ avgPrice _ o ho e
        ((filter_order_account_flag pf false avgPrice o).trans he)
  | SHORT =>
    simp only [hsig] at hbatch
    cases hpe : pf.prepare_entry_orders symbolInfo ev with
    | blocked => rw [hpe] at hbatch; cases hbatch
    | raised e0 => rw [hpe] at hbatch; cases hbatch
    | ok a =>
      obtain ⟨os, pf'⟩ := a
      simp only [hpe, Option.some.injEq] at hbatch
      subst hbatch
      simp only [hsig, hpe, prepare_entry_orders_state pf symbolInfo ev os pf' hpe]
      exact filter_batch_abandons _ avgPrice _ o ho e
        ((filter_order_account_flag pf false avgPrice o).trans he)

/-- Witness for C6: the EXIT signal over the 0.001-BTC open position
prepares a one-order batch that fails the minimum-notional filter, and no
below-minimum exception escapes `publish_orders` (the batch is abandoned). -/
theorem publish_orders_atomic_witness :
    c6Portfolio.publish_orders c6Avg c6Info c6Signal ≠
      .raised .binanceOrderMinTotal := by
  have hbatch : c6Portfolio.prepared_batch c6Info c6Signal = some [c6ExitOrder] := by
    simp only [Portfolio.prepared_batch, c6Signal, Portfolio.prepare_exit_orders,
      c6Portfolio, c6OpenPosition, List.filterMap_cons, List.filterMap_nil]
    norm_num [c6ExitOrder]
  have hmem : c6Portfolio.symbols.any (fun s => symbolEq s c6ExitOrder.symbol) = true := by
    simp [c6Portfolio, c6ExitOrder, symbolEq, btcSymbol]
  have hround : round_step_size (1 / 1000 : ℚ) (1 / 1000) = 1 / 1000 := by
    rw [round_step_size_eq_mul]
    norm_num [ratTrunc]
  have he : c6Portfolio.filter_order c6Avg c6ExitOrder = .error .binanceOrderMinTotal := by
    rw [filter_order_eq_of_mem c6Portfolio c6Avg c6ExitOrder hmem,
      show c6ExitOrder.quantity = (1 / 1000 : ℚ) from rfl,
      show c6ExitOrder.symbol.filters.lot_size.step_size = (1 / 1000 : ℚ) from rfl,
      hround]
    norm_num [effective_price, c6ExitOrder, btcSymbol, testFilters, c6Avg, hround]
  exact (publish_orders_atomic c6Portfolio c6Avg c6Info c6Signal [c6ExitOrder]
    c6ExitOrder .binanceOrderMinTotal hbatch (by simp) he rfl).2
    .binanceOrderMinTotal rfl

/-- A Bool that is not true is false. -/
theorem bool_eq_false_of_ne_true {b : Bool} (h : ¬b = true) : b = false := by
  cases b
  · rfl
  · exact absurd rfl h

/-- `Symbol`'s by-name equality is reflexive. -/
theorem symbolEq_refl (a : Symbol) : symbolEq a a = true := by
  simp [symbolEq]

/-- `Symbol`'s by-name equality is symmetric. -/
theorem symbolEq_comm (a b : Symbol) : symbolEq a b = symbolEq b a := by
  by_cases h : a.name = b.name
  · simp [symbolEq, h]
  · simp [symbolEq, h, Ne.symm h]

/-- Symbols equal by name are interchangeable on the right of `symbolEq`. -/
theorem symbolEq_congr_right {a b : Symbol} (c : Symbol) (h : symbolEq a b = true) :
    symbolEq c a = symbolEq c b := by
  have hn : a.name = b.name := by simpa [symbolEq] using h
  simp [symbolEq, hn]

/-- A key matching no entry is absent. -/
theorem pyDictLookup_eq_none (m : List (Symbol × Position)) (k : Symbol)
    (h : ∀ kv ∈ m, symbolEq kv.1 k = false) : pyDictLookup m k = none := by
  have hf : m.find? (fun kv => symbolEq kv.1 k) = none := by
    rw [List.find?_eq_none]
    intro kv hkv
    simp [h kv hkv]
  simp [pyDictLookup, hf]

/-- Every key of `pyDictSet m k v` is a key of `m` or `k` itself, expressed
through an arbitrary key property. -/
theorem pyDictSet_keys_prop (P : Symbol → Prop) (m : List (Symbol × Position))
    (k : Symbol) (v : Position) (hm : ∀ kv ∈ m, P kv.1) (hk : P k) :
    ∀ kv ∈ pyDictSet m k v, P kv.1 := by
  induction m with
  | nil =>
    intro kv hkv
    simp only [pyDictSet, List.mem_singleton] at hkv
    rw [hkv]
    exact hk
  | cons a rest ih =>
    intro kv hkv
    simp only [pyDictSet] at hkv
    by_cases hak : symbolEq a.1 k = true
    · rw [if_pos hak] at hkv
      rcases List.mem_cons.1 hkv with h1 | h2
      · rw [h1]
        exact hm a (List.mem_cons_self a rest)
      · exact hm kv (List.mem_cons_of_mem a h2)
    · rw [if_neg hak] at hkv
      rcases List.mem_cons.1 hkv with h1 | h2
      · rw [h1]
        exact hm a (List.mem_cons_self a rest)
      · exact ih (fun b hb => hm b (List.mem_cons_of_mem a hb)) kv h2

/-- `pyDictSet` keeps the open-map keys pairwise distinct. -/
theorem openKeysNodup_pyDictSet (m : List (Symbol × Position)) (k : Symbol)
    (v : Position) (h : openKeysNodup m) : openKeysNodup (pyDictSet m k v) := by
  induction m with
  | nil =>
    simp [pyDictSet, openKeysNodup]
  | cons a rest ih =>
    obtain ⟨ha, hrest⟩ := List.pairwise_cons.1 h
    simp only [openKeysNodup, pyDictSet]
    by_cases hak : symbolEq a.1 k = true
    · rw [if_pos hak]
      exact List.pairwise_cons.2 ⟨fun b hb => ha b hb, hrest⟩
    · rw [if_neg hak]
      refine List.pairwise_cons.2 ⟨?_, ih hrest⟩
      intro b hb
      exact pyDictSet_keys_prop (fun s => symbolEq a.1 s = false) rest k v
        (fun kv hkv => ha kv hkv) (bool_eq_false_of_ne_true hak) b hb

/-- `pyDictPop` removes at most one entry, in place. -/
theorem pyDictPop_sublist (m : List (Symbol × Position)) (k : Symbol) :
    (pyDictPop m k).Sublist m := by
  induction m with
  | nil => simp [pyDictPop]
  | cons a rest ih =>
    simp only [pyDictPop]
    by_cases hak : symbolEq a.1 k = true
    · rw [if_pos hak]
      exact List.sublist_cons_self a rest
    · rw [if_neg hak]
      exact ih.cons₂ a

/-- `pyDictPop` keeps the open-map keys pairwise distinct. -/
theorem openKeysNodup_pyDictPop (m : List (Symbol × Position)) (k : Symbol)
    (h : openKeysNodup m) : openKeysNodup (pyDictPop m k) :=
  h.sublist (pyDictPop_sublist m k)

/-- Looking up the key just written returns the written position. -/
theorem pyDictLookup_pyDictSet_self (m : List (Symbol × Position)) (k : Symbol)
    (v : Position) : pyDictLookup (pyDictSet m k v) k = some v := by
  induction m with
  | nil => simp [pyDictSet, pyDictLookup, List.find?_cons, symbolEq_refl]
  | cons a rest ih =>
    simp only [pyDictSet]
    by_cases hak : symbolEq a.1 k = true
    · rw [if_pos hak]
      simp [pyDictLookup, List.find?_cons, hak]
    · rw [if_neg hak]
      simpa [pyDictLookup, List.find?_cons, hak] using ih

/-- Popping a key from a nodup map removes it entirely. -/
theorem pyDictLookup_pyDictPop_self (m : List (Symbol × Position)) (k : Symbol)
    (h : openKeysNodup m) : pyDictLookup (pyDictPop m k) k = none := by
  induction m with
  | nil => simp [pyDictPop, pyDictLookup]
  | cons a rest ih =>
    obtain ⟨ha, hrest⟩ := List.pairwise_cons.1 h
    simp only [pyDictPop]
    by_cases hak : symbolEq a.1 k = true
    · rw [if_pos hak]
      apply pyDictLookup_eq_none
      intro kv hkv
      rw [← symbolEq_congr_right kv.1 hak, symbolEq_comm]
      exact ha kv hkv
    · rw [if_neg hak]
      simpa [pyDictLookup, List.find?_cons, hak] using ih hrest

/-- One `Portfolio.update_position` step keeps at most one open position per
symbol. -/
theorem update_position_nodup (pf : Portfolio) (ev : TransactionClosedEvent)
    (h : openKeysNodup pf.open_positions) :
    openKeysNodup (pf.update_position ev).1.open_positions := by
  unfold Portfolio.update_position
  cases hl : pyDictLookup pf.open_positions ev.transaction.order.symbol with
  | some p =>
    simp only [hl]
    rcases hup : p.update_position ev with ⟨p', err⟩
    cases err with
    | some e =>
      simpa [hup] using openKeysNodup_pyDictSet pf.open_positions _ p' h
    | none =>
      by_cases hc : p'.is_closed = true
      · simpa [hup, hc] using openKeysNodup_pyDictPop _ _
          (openKeysNodup_pyDictSet pf.open_positions _ p' h)
      · simpa [hup, hc] using openKeysNodup_pyDictSet pf.open_positions _ p' h
  | none =>
    simp only [hl]
    rcases hup : (Position.mk0 ev.transaction.order.symbol).update_position ev
      with ⟨p', err⟩
    have hset : openKeysNodup
        (pyDictSet pf.open_positions ev.transaction.order.symbol
          (Position.mk0 ev.transaction.order.symbol)) :=
      openKeysNodup_pyDictSet pf.open_positions _ _ h
    cases err with
    | some e =>
      simpa [hup] using openKeysNodup_pyDictSet _ _ p' hset
    | none =>
      by_cases hc : p'.is_closed = true
      · simpa [hup, hc] using openKeysNodup_pyDictPop _ _
          (openKeysNodup_pyDictSet _ _ p' hset)
      · simpa [hup, hc] using openKeysNodup_pyDictSet _ _ p' hset

/-- One `Portfolio.update_position` step only ever appends to a symbol's
closed-positions list. -/
theorem update_position_closed_growth (pf : Portfolio) (ev : TransactionClosedEvent)
    (n : String) :
    ∃ tail, (pf.update_position ev).1.closed_positions n =
      pf.closed_positions n ++ tail := by
  unfold Portfolio.update_position
  cases hl : pyDictLookup pf.open_positions ev.transaction.order.symbol with
  | some p =>
    simp only [hl]
    rcases hup : p.update_position ev with ⟨p', err⟩
    cases err with
    | some e => exact ⟨[], by simp [hup]⟩
    | none =>
      by_cases hc : p'.is_closed = true
      · by_cases hn : n = ev.transaction.order.symbol.name
        · exact ⟨[p'], by simp [hup, hc, hn]⟩
        · exact ⟨[], by simp [hup, hc, hn]⟩
      · exact ⟨[], by simp [hup, hc]⟩
  | none =>
    simp only [hl]
    rcases hup : (Position.mk0 ev.transaction.order.symbol).update_position ev
      with ⟨p', err⟩
    cases err with
    | some e => exact ⟨[], by simp [hup]⟩
    | none =>
      by_cases hc : p'.is_closed = true
      · by_cases hn : n = ev.transaction.order.symbol.name
        · exact ⟨[p'], by simp [hup, hc, hn]⟩
        · exact ⟨[], by simp [hup, hc, hn]⟩
      · exact ⟨[], by simp [hup, hc]⟩

/-- Processing any event sequence keeps the open map's keys distinct. -/
theorem process_events_nodup (evs : List TransactionClosedEvent) :
    ∀ pf : Portfolio, openKeysNodup pf.open_positions →
      openKeysNodup (pf.process_events evs).open_positions := by
  induction evs with
  | nil => intro pf h; exact h
  | cons e rest ih =>
    intro pf h
    exact ih _ (update_position_nodup pf e h)

/-- Processing any event sequence only grows each closed-positions list. -/
theorem process_events_closed_growth (evs : List TransactionClosedEvent) :
    ∀ (pf : Portfolio) (n : String), ∃ tail,
      (pf.process_events evs).closed_positions n = pf.closed_positions n ++ tail := by
  induction evs with
  | nil =>
    intro pf n
    exact ⟨[], (List.append_nil _).symm⟩
  | cons e rest ih =>
    intro pf n
    obtain ⟨t1, h1⟩ := update_position_closed_growth pf e n
    obtain ⟨t2, h2⟩ := ih ((pf.update_position e).1) n
    refine ⟨t1 ++ t2, ?_⟩
    show ((pf.update_position e).1.process_events rest).closed_positions n = _
    rw [h2, h1, List.append_assoc]

/-- Claim C9: across any sequence of transaction-closed events the portfolio
keeps at most one open position per symbol (pairwise-distinct open-map keys)
and every symbol's closed-positions list only grows; a symbol with no open
position gets a fresh `Position`; and a single step with no exception moves
the routed position to the symbol's closed list exactly when it came out
closed (removing it from the open map), and otherwise leaves it in the open
map with all closed lists untouched. -/
theorem portfolio_position_bookkeeping (pf : Portfolio) (ev : TransactionClosedEvent)
    (evs : List TransactionClosedEvent) (hnodup : openKeysNodup pf.open_positions) :
    openKeysNodup (pf.process_events evs).open_positions ∧
    (∀ n, ∃ tail, (pf.process_events evs).closed_positions n =
      pf.closed_positions n ++ tail) ∧
    (pyDictLookup pf.open_positions ev.transaction.order.symbol = none →
      pf.routed_position ev =
        ((Position.mk0 ev.transaction.order.symbol).update_position ev).1) ∧
    ((pf.update_position ev).2 = none →
      ((pf.routed_position ev).is_closed = true →
        pyDictLookup (pf.update_position ev).1.open_positions
          ev.transaction.order.symbol = none ∧
        (pf.update_position ev).1.closed_positions ev.transaction.order.symbol.name =
          pf.closed_positions ev.transaction.order.symbol.name ++
            [pf.routed_position ev]) ∧
      ((pf.routed_position ev).is_closed = false →
        pyDictLookup (pf.update_position ev).1.open_positions
          ev.transaction.order.symbol = some (pf.routed_position ev) ∧
        ∀ n, (pf.update_position ev).1.closed_positions n =
          pf.closed_positions n)) := by
  refine ⟨process_events_nodup evs pf hnodup, process_events_closed_growth evs pf,
    ?_, ?_⟩
  · intro hl
    simp [Portfolio.routed_position, hl]
  · unfold Portfolio.update_position Portfolio.routed_position
    cases hl : pyDictLookup pf.open_positions ev.transaction.order.symbol with
    | some p =>
      simp only [hl]
      rcases hup : p.update_position ev with ⟨p', err⟩
      simp only [hup]
      cases err with
      | some e =>
        intro h
        simp at h
      | none =>
        intro _
        constructor
        · intro hc
          simp only [hc, if_true]
          refine ⟨pyDictLookup_pyDictPop_self _ _
            (openKeysNodup_pyDictSet _ _ _ hnodup), ?_⟩
          simp
        · intro hc
          simp only [hc, Bool.false_eq_true, if_false]
          refine ⟨pyDictLookup_pyDictSet_self _ _ _, ?_⟩
          intro n
          trivial
    | none =>
      simp only [hl]
      rcases hup : (Position.mk0 ev.transaction.order.symbol).update_position ev
        with ⟨p', err⟩
      simp only [hup]
      cases err with
      | some e =>
        intro h
        simp at h
      | none =>
        intro _
        constructor
        · intro hc
          simp only [hc, if_true]
          refine ⟨pyDictLookup_pyDictPop_self _ _
            (openKeysNodup_pyDictSet _ _ _
              (openKeysNodup_pyDictSet _ _ _ hnodup)), ?_⟩
          simp
        · intro hc
          simp only [hc, Bool.false_eq_true, if_false]
          refine ⟨pyDictLookup_pyDictSet_self _ _ _, ?_⟩
          intro n
          trivial

/-- Witness for C9: processing one entry event from an empty open map keeps
the open-map keys pairwise distinct. -/
theorem portfolio_position_bookkeeping_witness :
    openKeysNodup ((c9Portfolio.process_events [c1Event1]).open_positions) :=
  (portfolio_position_bookkeeping c9Portfolio c1Event1 [c1Event1]
    (by simp [c9Portfolio, openKeysNodup])).1

end Staarb
